import Mathlib

/-!
Verification development for the pystdf_lite repository.

The Python sources are shallowly embedded as Lean definitions:

* Python strings are modelled as lists of characters (`Str`), so that every
  string operation is a structurally recursive, kernel-computable function.
* Python dicts keyed by strings are modelled as association lists with
  overwrite-on-insert semantics.
* Code that can raise an exception is modelled in the `Except Str` monad;
  an uncaught Python exception is an `Except.error` carrying the exception
  text.
* The pandas dataframes accumulated by `DataFrameWriter` are modelled at the
  logical level: the writer stores tab-joined rows that are re-read by
  `pandas.read_csv` at finalization, and this serialise/parse round trip is
  modelled as the identity on typed rows (numeric fields appear with the type
  that `read_csv` infers for them).
-/

/-- Python strings, modelled as lists of characters so that all operations
compute by structural recursion. -/
abbrev Str := List Char

/-- The space character (written numerically to keep literals simple). -/
def spaceChar : Char := Char.ofNat 32

/-- The tab character. -/
def tabChar : Char := Char.ofNat 9

/-- Split a string on a separator character; mirror of Python
`s.split(sep)` for a one-character separator. -/
def splitOnChar (sep : Char) : Str → List Str
  | [] => [[]]
  | c :: rest =>
    let r := splitOnChar sep rest
    if c = sep then [] :: r
    else
      match r with
      | [] => [[c]]
      | g :: gs => (c :: g) :: gs

/-- Join a list of strings with a separator string; mirror of Python
`sep.join(parts)`. -/
def joinWith (sep : Str) : List Str → Str
  | [] => []
  | [s] => s
  | s :: rest => s ++ sep ++ joinWith sep rest

/-- Replace every occurrence of a character by a replacement string; used to
mirror the single-character-pattern `str.replace` calls of the source
(tab stripping, and the regex substitution of a space by two underscores). -/
def replaceChar (pat : Char) (rep : Str) (s : Str) : Str :=
  s.flatMap fun c => if c = pat then rep else [c]

/-- Mirror of Python `str.lower()` (ASCII case folding, which is all the
source ever feeds it). -/
def lowerStr (s : Str) : Str :=
  s.map Char.toLower

/-- Parse a nonempty all-digit string as a natural number, `none` otherwise.
Used by the model of `datetime.strptime` for the numeric fields of the
fixed date-time layout. -/
def digitsToNat : Str → Option Nat
  | [] => none
  | l =>
    if l.all Char.isDigit then
      some (l.foldl (fun acc c => acc * 10 + (c.toNat - 48)) 0)
    else none

/-- Association-list insert with overwrite, mirroring Python dict assignment
`d[k] = v` (at most one binding per key is ever present). -/
def alistInsert (l : List (Str × Nat)) (k : Str) (v : Nat) : List (Str × Nat) :=
  match l with
  | [] => [(k, v)]
  | (k', v') :: rest => if k' = k then (k, v) :: rest else (k', v') :: alistInsert rest k v

/-- Association-list lookup, mirroring Python dict subscript `d[k]`
(`none` corresponds to a raised `KeyError`). -/
def alistLookup (l : List (Str × Nat)) (k : Str) : Option Nat :=
  match l with
  | [] => none
  | (k', v') :: rest => if k' = k then some v' else alistLookup rest k

/-- The fields of a parametric-test (PTR) record that `after_send` selects,
already in `csv_format` string form. -/
structure PtrRec where
  head : Str
  site : Str
  result : Str
  test_txt : Str
  test_num : Str
  res_scal : Str
  llm_scal : Str
  hlm_scal : Str
  lo_limit : Str
  hi_limit : Str
  units : Str
  lo_spec : Str
  hi_spec : Str
deriving DecidableEq, Repr

/-- The fields of a part-result (PRR) record that `after_send` selects.
`hard_bin`, `soft_bin` and `part_id` are carried as the integers that
`read_csv` infers for them at finalization. -/
structure PrrRec where
  head : Str
  site : Str
  part_flg : Str
  num_test : Str
  hard_bin : Int
  soft_bin : Int
  x_coord : Str
  y_coord : Str
  test_t : Str
  part_id : Int
deriving DecidableEq, Repr

/-- A hard-bin or soft-bin summary (HBR/SBR) record: bin number, bin count,
pass/fail flag and bin name.  The bin number is carried as the integer that
the finalization pass casts it to. -/
structure BinRec where
  num : Int
  cnt : Str
  pf : Str
  nam : Str
deriving DecidableEq, Repr

/-- A decoded record as dispatched to `after_send`, restricted to the record
kinds the writer reacts to; `other` stands for every record kind that falls
through the `elif` chain unhandled. -/
inductive Rec where
  | pir (head site : Str)
  | ptr (p : PtrRec)
  | prr (p : PrrRec)
  | hbr (b : BinRec)
  | sbr (b : BinRec)
  | other
deriving DecidableEq, Repr

/-- One long-form parametric row appended to `ptr_data`: the PTR fields plus
the correlated part sequence index. -/
structure PtrRow where
  row : PtrRec
  index : Nat
deriving DecidableEq, Repr

/-- One part-summary row appended to `prr_data`: the PRR fields plus the
correlated part sequence index. -/
structure PrrRow where
  row : PrrRec
  index : Nat
deriving DecidableEq, Repr

/-- The mutable state of `DataFrameWriter` that `after_send` touches:
the part counter, the open-part-context dict keyed by "head-site", and the
accumulated row collections. -/
structure WState where
  part_count : Nat
  part_id_dict : List (Str × Nat)
  ptr_data : List PtrRow
  prr_data : List PrrRow
  hbr_data : List BinRec
  sbr_data : List BinRec
deriving DecidableEq, Repr

/-- The writer state right after `DataFrameWriter.__init__`. -/
def initState : WState :=
  ⟨0, [], [], [], [], []⟩

/-- The dict key f"head-site" built by `after_send` from the
tab-stripped formatted head and site numbers. -/
def partKey (head site : Str) : Str :=
  head ++ ['-'] ++ site

/-- Mirror of the `.replace(chr(9), the-empty-string)` tab stripping applied
to every selected field value. -/
def stripTabs (s : Str) : Str :=
  replaceChar tabChar [] s

/-- Tab-strip every field of a PTR record, as the selection loop does. -/
def stripPtr (p : PtrRec) : PtrRec :=
  ⟨stripTabs p.head, stripTabs p.site, stripTabs p.result, stripTabs p.test_txt,
   stripTabs p.test_num, stripTabs p.res_scal, stripTabs p.llm_scal, stripTabs p.hlm_scal,
   stripTabs p.lo_limit, stripTabs p.hi_limit, stripTabs p.units, stripTabs p.lo_spec,
   stripTabs p.hi_spec⟩

/-- Tab-strip the string fields of a PRR record, as the selection loop does. -/
def stripPrr (p : PrrRec) : PrrRec :=
  ⟨stripTabs p.head, stripTabs p.site, stripTabs p.part_flg, stripTabs p.num_test,
   p.hard_bin, p.soft_bin, stripTabs p.x_coord, stripTabs p.y_coord,
   stripTabs p.test_t, p.part_id⟩

/-- Embedding of `DataFrameWriter.after_send` (src/pystdf/Writers.py).
A `pir` increments `part_count` and records the fresh index in
`part_id_dict` under its head/site key, overwriting any prior binding.
A `ptr` or `prr` looks its key up with a plain dict subscript: when no
context is open for the key this raises `KeyError`, modelled as
`Except.error`; otherwise the row is appended together with the index.
`hbr`/`sbr` rows are appended to the summary collections, and every other
record kind leaves the state unchanged. -/
def afterSend (s : WState) (r : Rec) : Except Str WState :=
  match r with
  | .pir head site =>
    let n := s.part_count + 1
    .ok { s with
          part_count := n,
          part_id_dict := alistInsert s.part_id_dict (partKey (stripTabs head) (stripTabs site)) n }
  | .ptr p =>
    let p' := stripPtr p
    match alistLookup s.part_id_dict (partKey p'.head p'.site) with
    | some i => .ok { s with ptr_data := s.ptr_data ++ [⟨p', i⟩] }
    | none => .error ("KeyError: ".data ++ partKey p'.head p'.site)
  | .prr p =>
    let p' := stripPrr p
    match alistLookup s.part_id_dict (partKey p'.head p'.site) with
    | some i => .ok { s with prr_data := s.prr_data ++ [⟨p', i⟩] }
    | none => .error ("KeyError: ".data ++ partKey p'.head p'.site)
  | .hbr b => .ok { s with hbr_data := s.hbr_data ++ [b] }
  | .sbr b => .ok { s with sbr_data := s.sbr_data ++ [b] }
  | .other => .ok s

/-- Run `after_send` over a whole record stream. -/
def runStream (s : WState) : List Rec → Except Str WState
  | [] => .ok s
  | r :: rest =>
    match afterSend s r with
    | .error e => .error e
    | .ok s' => runStream s' rest

/-- Instrumented run: identical to `runStream` (it steps with `afterSend`),
but additionally returns the sequence of part indices allocated by the
part-begin records, in stream order.  The index allocated by a `pir` is the
`part_count` of the state right after the step, which is exactly the value
the source stores into `part_id_dict`. -/
def runAlloc (s : WState) : List Rec → Except Str (WState × List Nat)
  | [] => .ok (s, [])
  | r :: rest =>
    match afterSend s r with
    | .error e => .error e
    | .ok s' =>
      match runAlloc s' rest with
      | .error e => .error e
      | .ok (sf, tr) =>
        .ok (sf, (match r with | .pir _ _ => [s'.part_count] | _ => []) ++ tr)

/-- Number of part-begin records in a stream. -/
def countPirs : List Rec → Nat
  | [] => 0
  | .pir _ _ :: rest => countPirs rest + 1
  | _ :: rest => countPirs rest

/-- A concrete parametric-result record on head 1 / site 1. -/
def ptrExample : PtrRec :=
  ⟨"1".data, "1".data, "0.5".data, "vdd".data, "100".data,
   "0".data, "0".data, "0".data, "0".data, "1".data,
   "V".data, "0".data, "1".data⟩

/-- A concrete stream with two part-begin records (the second reuses a head
and site already seen). -/
def recs5 : List Rec :=
  [Rec.pir "1".data "1".data, Rec.other, Rec.pir "2".data "1".data]

/-- The writer state after running `recs5`. -/
def s5F : WState :=
  ⟨2, [("1-1".data, 1), ("2-1".data, 2)], [], [], [], []⟩

/-- Mirror of one row of `Series.str.rsplit` with separator space and at most
one split, keeping column 0: everything before the last space, or the whole
string when it contains no space. -/
def rsplitLast (s : Str) : Str :=
  match splitOnChar spaceChar s with
  | [] => s
  | [_] => s
  | parts => joinWith [spaceChar] parts.dropLast

/-- Mirror of `Series.replace` of a period by an underscore without
`regex=True`: pandas replaces only cells whose whole value equals the
pattern, so only the one-character value is affected. -/
def seriesReplaceDot (s : Str) : Str :=
  if s = ['.'] then ['_'] else s

/-- The test-name formatting applied when `format_test_name` is true: drop
the text after the last space, the full-value period replacement, the regex
substitution of each space by two underscores, then lowercasing. -/
def formatTestTxt (s : Str) : Str :=
  lowerStr (replaceChar spaceChar "__".data (seriesReplaceDot (rsplitLast s)))

/-- A prepared long-form row after the test-identifier concatenation and the
drop of the limit columns: the remaining dataframe columns are head, site,
result, test text, test number, the part index and the derived TEST name. -/
structure PRow where
  head : Str
  site : Str
  index : Nat
  test_txt : Str
  test_num : Str
  test : Str
  result : Str
deriving DecidableEq, Repr

/-- The per-row effect of the test-name formatting, TEST derivation (test
number, two underscores, test text) and limit-column drop over the
accumulated long-form rows. -/
def prepRows (ftn : Bool) (rows : List PtrRow) : List PRow :=
  rows.map fun r =>
    let txt := if ftn then formatTestTxt r.row.test_txt else r.row.test_txt
    ⟨r.row.head, r.row.site, r.index, txt, r.row.test_num,
     r.row.test_num ++ "__".data ++ txt, r.row.result⟩

/-- The test-name preparation step as `post_processing` runs it.  With
`format_test_name` true, `Series.str.rsplit` with `expand=True` over an
empty test-text column produces a zero-column frame, so selecting column 0
raises `KeyError: 0` before anything else happens; on a nonempty column the
selection always succeeds (column 0 exists whether or not any row contains
a space) and the remaining operations are the per-row maps of
`prepRows`. -/
def prepPtr (ftn : Bool) (rows : List PtrRow) : Except Str (List PRow) :=
  match ftn, rows with
  | true, [] => .error "KeyError: 0".data
  | _, _ => .ok (prepRows ftn rows)

/-- The non-pivoted columns of the long table: head, site and part index. -/
structure PKey where
  head : Str
  site : Str
  index : Nat
deriving DecidableEq, Repr

/-- The pivot index of a prepared row. -/
def pkeyOf (r : PRow) : PKey :=
  ⟨r.head, r.site, r.index⟩

/-- The (index columns, TEST) combination of every row, whose duplication is
what makes `pd.pivot` raise. -/
def pivotKeys (rows : List PRow) : List (PKey × Str) :=
  rows.map fun r => (pkeyOf r, r.test)

/-- Duplicate detection over the pivot keys. -/
def hasDupKeys : List (PKey × Str) → Bool
  | [] => false
  | k :: rest => rest.contains k || hasDupKeys rest

/-- The error `pd.pivot` raises on a duplicated (index, columns) pair. -/
def pivotErr : Str :=
  "ValueError: Index contains duplicate entries, cannot reshape".data

/-- One row of the pivoted wide table: the index columns plus one cell per
distinct test identifier seen for that key. -/
structure WideRow where
  key : PKey
  cells : List (Str × Str)
deriving DecidableEq, Repr

/-- The distinct pivot keys in order of first occurrence. -/
def uniqKeysAux (seen : List PKey) : List PRow → List PKey
  | [] => []
  | r :: rest =>
    if seen.contains (pkeyOf r) then uniqKeysAux seen rest
    else pkeyOf r :: uniqKeysAux (pkeyOf r :: seen) rest

/-- Embedding of the `pd.pivot` call: it raises on any duplicated
(index columns, TEST) combination and otherwise produces one row per
distinct index key with one cell per test.  (pandas emits the keys in
sorted order; first-occurrence order is used here, which no claim depends
on because the final table is re-sorted before it is read.) -/
def pivotPtr (rows : List PRow) : Except Str (List WideRow) :=
  if hasDupKeys (pivotKeys rows) then .error pivotErr
  else .ok ((uniqKeysAux [] rows).map fun k =>
    ⟨k, (rows.filter fun r => pkeyOf r = k).map fun r => (r.test, r.result)⟩)

/-- A row of the merged table: pivot columns, the part-summary fields when a
part-summary row matched, and the renamed hard/soft bin numbers after the
missing-value coercion to -1 and the cast to int. -/
structure MRow where
  head : Str
  site : Str
  index : Nat
  tests : Option (List (Str × Str))
  prr : Option PrrRec
  hbin : Int
  sbin : Int
deriving DecidableEq, Repr

/-- The merge key comparison on (index, head, site). -/
def prrMatches (k : PKey) (p : PrrRow) : Bool :=
  p.row.head = k.head && p.row.site = k.site && p.index = k.index

/-- Embedding of the outer `pd.merge` of the pivoted table with the
part-summary table on (index, head, site), folded together with the
immediately following bin-column rename and the NaN-to-sentinel integer
coercion: left rows join with every matching part-summary row (none gives a
null part-summary side and bin number -1), and unmatched part-summary rows
are appended with a null pivot side.  (pandas sorts the keys of an outer
merge; the claims never depend on this intermediate order because the final
table is re-sorted.) -/
def outerMergePrr (ws : List WideRow) (ps : List PrrRow) : List MRow :=
  (ws.flatMap fun w =>
    match ps.filter (prrMatches w.key) with
    | [] => [⟨w.key.head, w.key.site, w.key.index, some w.cells, none, -1, -1⟩]
    | l => l.map fun p =>
        ⟨w.key.head, w.key.site, w.key.index, some w.cells, some p.row,
         p.row.hard_bin, p.row.soft_bin⟩)
  ++ ((ps.filter fun p => !(ws.any fun w => prrMatches w.key p)).map fun p =>
    ⟨p.row.head, p.row.site, p.index, none, some p.row, p.row.hard_bin, p.row.soft_bin⟩)

/-- The deduplication key of `drop_duplicates(subset=[number, name])`:
the bin number together with the bin name. -/
def binKey (b : BinRec) : Int × Str :=
  (b.num, b.nam)

/-- Embedding of `drop_duplicates(subset=[bin number, bin name], keep=last)`:
a row survives exactly when no later row carries the same (number, name)
pair, surviving rows keeping their relative order. -/
def dedupKeepLast : List BinRec → List BinRec
  | [] => []
  | b :: rest =>
    if rest.any (fun b2 => binKey b2 = binKey b) then dedupKeepLast rest
    else b :: dedupKeepLast rest

/-- The three bin-summary columns kept for the join. -/
structure BinSel where
  num : Int
  nam : Str
  pf : Str
deriving DecidableEq, Repr

/-- Column selection to (number, name, pass/fail). -/
def selBin (b : BinRec) : BinSel :=
  ⟨b.num, b.nam, b.pf⟩

/-- A merged row extended with the hard-bin descriptor columns. -/
structure HRow where
  m : MRow
  hbin_nam : Option Str
  hbin_pf : Option Str
deriving DecidableEq, Repr

/-- A row further extended with the soft-bin descriptor columns. -/
structure SRow where
  h : HRow
  sbin_nam : Option Str
  sbin_pf : Option Str
deriving DecidableEq, Repr

/-- Embedding of the left `pd.merge` on the hard-bin number: every row joins
with each matching deduplicated bin-summary row (several matches duplicate
the row) and receives null descriptors when none matches. -/
def leftJoinHbin (rows : List MRow) (bins : List BinSel) : List HRow :=
  rows.flatMap fun r =>
    match bins.filter (fun b => b.num = r.hbin) with
    | [] => [⟨r, none, none⟩]
    | l => l.map fun b => ⟨r, some b.nam, some b.pf⟩

/-- Embedding of the left `pd.merge` on the soft-bin number. -/
def leftJoinSbin (rows : List HRow) (bins : List BinSel) : List SRow :=
  rows.flatMap fun r =>
    match bins.filter (fun b => b.num = r.m.sbin) with
    | [] => [⟨r, none, none⟩]
    | l => l.map fun b => ⟨r, some b.nam, some b.pf⟩

/-- A parsed date-time value, the result of the strptime model. -/
structure PyDateTime where
  hour : Nat
  minute : Nat
  second : Nat
  day : Nat
  month : Nat
  year : Nat
deriving DecidableEq, Repr

/-- The twelve month abbreviations matched by the %b directive. -/
def monthAbbrevs : List Str :=
  ["Jan".data, "Feb".data, "Mar".data, "Apr".data, "May".data, "Jun".data,
   "Jul".data, "Aug".data, "Sep".data, "Oct".data, "Nov".data, "Dec".data]

/-- Case-insensitive month-abbreviation lookup, one-based. -/
def findMonth (s : Str) : List Str → Nat → Option Nat
  | [], _ => none
  | m :: rest, i => if lowerStr m = lowerStr s then some (i + 1) else findMonth s rest (i + 1)

/-- Model of `datetime.strptime` with the fixed layout of the source
(hour colon minute colon second, a literal T, then day dash month-abbrev
dash year): `none` stands for the `ValueError` Python raises on input that
does not match the layout, including the empty string. -/
def strptimeFixed (s : Str) : Option PyDateTime :=
  match splitOnChar ':' s with
  | [hh, mm, rest] =>
    match splitOnChar 'T' rest with
    | [ss, date] =>
      match splitOnChar '-' date with
      | [dd, mon, yyyy] =>
        match digitsToNat hh, digitsToNat mm, digitsToNat ss,
              digitsToNat dd, findMonth mon monthAbbrevs 0, digitsToNat yyyy with
        | some h, some mi, some sec, some d, some mo, some y =>
          if h < 24 && mi < 60 && sec < 62 && 1 ≤ d && d ≤ 31 &&
             hh.length ≤ 2 && mm.length ≤ 2 && ss.length ≤ 2 && yyyy.length ≤ 4 then
            some ⟨h, mi, sec, d, mo, y⟩
          else none
        | _, _, _, _, _, _ => none
      | _ => none
    | _ => none
  | _ => none

/-- Modelled from the spec: the field-name lists of the file-attribute,
master-information and master-results record schemas live in pystdf/V4.py,
which is not under src.  Only a representative subset matters for the
claims: the declared timestamp fields SETUP_T and START_T of the
master-information record, FINISH_T of the master-results record, and some
scalar metadata fields that are broadcast unchanged. -/
def farFieldNames : List Str :=
  ["CPU_TYPE".data, "STDF_VER".data]

/-- Modelled from the spec: master-information record field names, see
`farFieldNames`. -/
def mirFieldNames : List Str :=
  ["SETUP_T".data, "START_T".data, "STAT_NUM".data, "MODE_COD".data,
   "LOT_ID".data, "PART_TYP".data, "NODE_NAM".data, "JOB_NAM".data, "JOB_REV".data]

/-- Modelled from the spec: master-results record field names, see
`farFieldNames`. -/
def mrrFieldNames : List Str :=
  ["FINISH_T".data, "DISP_COD".data, "USR_DESC".data, "EXC_DESC".data]

/-- The declared timestamp fields of `post_processing`. -/
def time_columns : List Str :=
  ["SETUP_T".data, "START_T".data, "FINISH_T".data]

/-- The concatenated column lists of the metadata loop (far, mir, mrr). -/
def metaPtrColumns : List Str :=
  farFieldNames ++ mirFieldNames ++ mrrFieldNames

/-- The ValueError text of a failed strptime call. -/
def valueErr (s : Str) : Str :=
  "ValueError: time data ".data ++ s ++ " does not match format".data

/-- The metadata broadcast loop of `post_processing`: for each declared
column, a timestamp field is parsed with `strptimeFixed` inside a
try/except that catches only `TypeError` — so an absent (None) value is
skipped (the column is never created), while an unparsable string raises an
uncaught `ValueError` — and every other field is broadcast as a constant
column.  Returns the created time columns and the broadcast columns. -/
def processCols (meta : Str → Option Str) :
    List Str → List (Str × PyDateTime) → List (Str × Option Str) →
    Except Str (List (Str × PyDateTime) × List (Str × Option Str))
  | [], tc, bc => .ok (tc, bc)
  | c :: cs, tc, bc =>
    if c ∈ time_columns then
      match meta c with
      | none => processCols meta cs tc bc
      | some s =>
        match strptimeFixed s with
        | some t => processCols meta cs (tc ++ [(c, t)]) bc
        | none => .error (valueErr s)
    else processCols meta cs tc (bc ++ [(c, meta c)])

/-- The metadata loop over the declared far/mir/mrr columns. -/
def processMetaCols (meta : Str → Option Str) :
    Except Str (List (Str × PyDateTime) × List (Str × Option Str)) :=
  processCols meta metaPtrColumns [] []

/-- One row of the final table handed to the sort: all joined columns, the
broadcast metadata, and the part identifier after the integer coercion that
substitutes -1 for a missing value. -/
structure FRow where
  head : Str
  site : Str
  index : Nat
  tests : Option (List (Str × Str))
  prr : Option PrrRec
  hbin : Int
  sbin : Int
  hbin_nam : Option Str
  hbin_pf : Option Str
  sbin_nam : Option Str
  sbin_pf : Option Str
  timeCols : List (Str × PyDateTime)
  metaCols : List (Str × Option Str)
  wafer_id : Option Str
  part_id : Int
deriving DecidableEq, Repr

/-- Assemble one final row: flatten the joined row, broadcast the metadata
and wafer id, and coerce a missing part identifier to the -1 sentinel. -/
def finalizeRow (r : SRow) (tc : List (Str × PyDateTime))
    (bc : List (Str × Option Str)) (wafer : Option Str) : FRow :=
  ⟨r.h.m.head, r.h.m.site, r.h.m.index, r.h.m.tests, r.h.m.prr, r.h.m.hbin,
   r.h.m.sbin, r.h.hbin_nam, r.h.hbin_pf, r.sbin_nam, r.sbin_pf, tc, bc, wafer,
   match r.h.m.prr with | some p => p.part_id | none => -1⟩

/-- Sorted insertion by the part identifier column. -/
def insertByPartId (x : FRow) : List FRow → List FRow
  | [] => [x]
  | y :: ys => if x.part_id ≤ y.part_id then x :: y :: ys else y :: insertByPartId x ys

/-- Embedding of `df.sort_values(by=[PART_ID], ascending=True)`: a
comparison sort on the part identifier column.  (pandas defaults to an
unstable quicksort; only the resulting sortedness, and the order of rows
with distinct keys, are ever used by the claims.) -/
def sortByPartId : List FRow → List FRow
  | [] => []
  | x :: xs => insertByPartId x (sortByPartId xs)

/-- Embedding of `DataFrameWriter.post_processing` (src/pystdf/Writers.py)
up to and including the final sort: bin-summary deduplication and column
selection, test-name formatting and TEST derivation, the pivot to wide
form, the outer merge with the part-summary rows, the bin-descriptor left
joins, the metadata broadcast with timestamp parsing, the integer coercion
and the sort by part identifier.  The remaining steps (identity-column
heuristics, the ECID column, lowercased column selection and file writing)
neither reorder rows nor add anything the claims reference; the ECID helper
is embedded separately below. -/
def postProcessing (ftn : Bool) (s : WState) (meta : Str → Option Str) :
    Except Str (List FRow) :=
  let hbrD := (dedupKeepLast s.hbr_data).map selBin
  let sbrD := (dedupKeepLast s.sbr_data).map selBin
  match prepPtr ftn s.ptr_data with
  | .error e => .error e
  | .ok prows =>
    match pivotPtr prows with
    | .error e => .error e
    | .ok wide =>
      let merged := outerMergePrr wide s.prr_data
      let joined := leftJoinSbin (leftJoinHbin merged hbrD) sbrD
      match processMetaCols meta with
      | .error e => .error e
      | .ok (tc, bc) =>
        .ok (sortByPartId (joined.map fun r => finalizeRow r tc bc (meta "WAFER_ID".data)))

/-- The all-absent metadata record (no far/mir/mrr record was seen). -/
def metaNone : Str → Option Str := fun _ => none

/-- A metadata record whose setup timestamp is the empty string — exactly
what `after_send` stores when a master-information record carries an absent
timestamp field, since `csv_format` renders None as the empty string. -/
def metaBad : Str → Option Str :=
  fun c => if c = "SETUP_T".data then some "".data else none

/-- A concrete part-summary record with part identifier 1. -/
def prrPid1 : PrrRec :=
  ⟨"1".data, "1".data, "0".data, "1".data, 1, 1, "0".data, "0".data, "10".data, 1⟩

/-- A concrete part-summary record with part identifier 2. -/
def prrPid2 : PrrRec :=
  ⟨"1".data, "1".data, "0".data, "1".data, 1, 1, "0".data, "0".data, "10".data, 2⟩

/-- A hard-bin summary record: bin 1 named A. -/
def binA : BinRec := ⟨1, "2".data, "P".data, "A".data⟩

/-- A second hard-bin summary record for bin 1, also named A (different
count). -/
def binA2 : BinRec := ⟨1, "3".data, "P".data, "A".data⟩

/-- A hard-bin summary record for the same bin 1 but named B. -/
def binB : BinRec := ⟨1, "3".data, "P".data, "B".data⟩

/-- A concrete merged row whose hard-bin number is 1. -/
def mExample : MRow := ⟨"1".data, "1".data, 1, none, none, 1, 1⟩

/-- A stream whose two hard-bin summary records share bin number 1 with the
distinct names A and B. -/
def recs2 : List Rec :=
  [Rec.pir "1".data "1".data, Rec.ptr ptrExample, Rec.prr prrPid1,
   Rec.hbr binA, Rec.hbr binB]

/-- A writer state with two long-form rows for the same part and test. -/
def sDup : WState :=
  { initState with ptr_data := [⟨ptrExample, 1⟩, ⟨ptrExample, 1⟩] }

/-- A writer state with a single long-form row. -/
def sUniq : WState :=
  { initState with ptr_data := [⟨ptrExample, 1⟩] }

/-- A stream in which part-begin order and part-identifier order disagree:
the first tested part reports part identifier 2, the second part
identifier 1. -/
def recs6 : List Rec :=
  [Rec.pir "1".data "1".data, Rec.ptr ptrExample, Rec.prr prrPid2,
   Rec.pir "1".data "1".data, Rec.ptr ptrExample, Rec.prr prrPid1]

/-- The writer state after running `recs6`. -/
def s6 : WState :=
  match runStream initState recs6 with
  | .ok s => s
  | .error _ => initState

/-- The final table produced from `recs6`. -/
def t6 : List FRow :=
  match postProcessing true s6 metaNone with
  | .ok t => t
  | .error _ => []

/-- Boolean check that a list of part indices is ascending. -/
def idxAscending : List Nat → Bool
  | [] => true
  | [_] => true
  | a :: b :: r => a ≤ b && idxAscending (b :: r)

/-- The schema-level attributes of a record class read by `csv_format` and
the registry: class name, field names and field-type codes.
`UnknownRecord` schemas additionally carry the raw type and subtype tags. -/
structure Schema where
  className : Str
  fieldNames : List Str
  fieldStdfTypes : List Str
  rec_typ : Option Nat
  rec_sub : Option Nat
deriving DecidableEq, Repr

/-- Embedding of `UnknownRecord` (src/pystdf/Types.py): a `TableTemplate`
initialised with empty field-name and field-type lists and the class name
UnknownRecord, carrying the raw type and subtype tags of the record. -/
def UnknownRecord (rec_typ rec_sub : Nat) : Schema :=
  ⟨"UnknownRecord".data, [], [], some rec_typ, some rec_sub⟩

/-- Modelled from the spec: the registry lookup itself lives in the stream
reader (pystdf/IO.py and pystdf/V4.py), which is not under src; section 4.1
defines `lookup(type_tag, subtype_tag)` as returning the registered schema
for the pair and an unknown-record schema otherwise.  The registry is an
association list from (type, subtype) tag pairs to schemas; the
unknown-record schema is the `UnknownRecord` embedded above from
src/pystdf/Types.py. -/
def lookupSchema (reg : List ((Nat × Nat) × Schema)) (typ sub : Nat) : Schema :=
  match reg.lookup (typ, sub) with
  | some sch => sch
  | none => UnknownRecord typ sub

/-- A Python value as `csv_format` sees one: None, a string, an integer
(covering the epoch timestamps), or a list of values (GDR payloads and
counted arrays). -/
inductive Value where
  | none
  | str (s : Str)
  | int (n : Int)
  | list (vs : List Value)

/-- Decimal digits of a positive natural number (fuel-based so that it
computes by structural recursion; the fuel is always sufficient). -/
def natDigitsAux : Nat → Nat → Str
  | 0, _ => []
  | _ + 1, 0 => []
  | fuel + 1, n => natDigitsAux fuel (n / 10) ++ [Char.ofNat (48 + n % 10)]

/-- Decimal rendering of a natural number. -/
def natToStr (n : Nat) : Str :=
  if n = 0 then "0".data else natDigitsAux (n + 1) n

/-- Mirror of Python `str` on an int. -/
def intToStr : Int → Str
  | .ofNat m => natToStr m
  | .negSucc m => '-' :: natToStr (m + 1)

/-- Mirror of Python `str` on a scalar value.  A nested list never reaches
this function in the source (array elements are scalars); it is rendered
with an ellipsis placeholder. -/
def pyStrScalar : Value → Str
  | .none => "None".data
  | .str s => s
  | .int n => intToStr n
  | .list _ => "[...]".data

/-- Mirror of Python `str`: scalars as `pyStrScalar`, a list in bracketed
comma-separated form. -/
def pyStr : Value → Str
  | .list vs => ['['] ++ joinWith ", ".data (vs.map pyStrScalar) ++ [']']
  | v => pyStrScalar v

/-- Hexadecimal digits of a natural number (fuel-based). -/
def hexDigitsAux : Nat → Nat → Str
  | 0, _ => []
  | _ + 1, 0 => []
  | fuel + 1, n =>
    hexDigitsAux fuel (n / 16) ++
      [if n % 16 < 10 then Char.ofNat (48 + n % 16) else Char.ofNat (55 + n % 16)]

/-- Uppercase hexadecimal rendering of a natural number. -/
def natToHex (n : Nat) : Str :=
  if n = 0 then "0".data else hexDigitsAux (n + 1) n

/-- Zero-pad a string to width two. -/
def pad02 (s : Str) : Str :=
  if s.length < 2 then '0' :: s else s

/-- The percent-02X formatting of `format_by_type`: uppercase hexadecimal
padded to two digits; Python renders a negative int with a leading minus.
A non-int value would raise in Python and is rendered with `pyStr` here;
no call site produces one for a B1/N1 field. -/
def hex02 : Value → Str
  | .int (.ofNat m) => pad02 (natToHex m)
  | .int (.negSucc m) => '-' :: natToHex (m + 1)
  | v => pyStr v

/-- Embedding of `format_by_type` (src/pystdf/Writers.py): B1 and N1 values
are rendered as two-digit uppercase hexadecimal, everything else with
`str`. -/
def format_by_type (value : Value) (field_type : Str) : Str :=
  if field_type = "B1".data ∨ field_type = "N1".data then hex02 value
  else pyStr value

/-- The elements Python iterates over in the GDR and counted-array
branches; a non-list value there would raise TypeError in Python, and no
call site produces one for those fields. -/
def elemsOf : Value → List Value
  | .list vs => vs
  | v => [v]

/-- Embedding of `DataFrameWriter.csv_format` (src/pystdf/Writers.py).
The identity tests against the V4 record instances (`rectype is V4.gdr`
and so on) are modelled by the class name.  `strf` stands for
`time.strftime` of the fixed layout over `time.localtime`, whose result
depends on the host timezone and is therefore a parameter of the model.
The field-type fetch `rectype.fieldStdfTypes[field_index]` happens eagerly,
before the None check, and raises IndexError for an out-of-range field
index.  (The later field-name fetch inside the date-time branch shares the
same index; schemas built from a fieldMap keep both lists the same length,
so it is modelled totally.) -/
def csv_format (strf : Int → Str) (rectype : Schema) (field_index : Nat) (value : Value) :
    Except Str Str :=
  match rectype.fieldStdfTypes[field_index]? with
  | Option.none => .error "IndexError: list index out of range".data
  | some field_type =>
    match value with
    | .none => .ok []
    | v =>
      .ok (if rectype.className = "gdr".data then
        joinWith [';'] ((elemsOf v).map pyStr)
      else if field_type.head? = some 'k' then
        joinWith [','] ((elemsOf v).map fun e => format_by_type e (field_type.drop 2))
      else if rectype.className = "mir".data ∨ rectype.className = "mrr".data then
        if List.isSuffixOf "_T".data (rectype.fieldNames.getD field_index []) then
          match v with
          | .int n => strf n
          | v' => pyStr v'
        else pyStr v
      else pyStr v)

/-- The supported output file types of `DataFrameWriter.__init__`. -/
def supported_files : List Str :=
  ["csv".data, "parquet".data]

/-- Embedding of the output-file-type selection of
`DataFrameWriter.__init__`: the constructor argument defaults to None, and
any value not contained in the supported list — None included — falls back
to csv without raising. -/
def selectOutputFileType (output_file_type : Option Str) : Str :=
  match output_file_type with
  | none => "csv".data
  | some t => if t ∈ supported_files then t else "csv".data

/-- The result of `return_ecid_column`: a per-row series of strings, or the
scalar NaN returned when a column is missing. -/
inductive EcidResult where
  | series (vals : List Str)
  | nanScalar
deriving DecidableEq, Repr

/-- Pointwise addition of a pandas string series and a scalar string. -/
def sAddScalar (s : List Str) (c : Str) : List Str :=
  s.map fun v => v ++ c

/-- Pointwise addition of two aligned pandas string series. -/
def sAdd (s t : List Str) : List Str :=
  List.zipWith (fun a b => a ++ b) s t

/-- Embedding of `return_ecid_column` (src/pystdf/DataFrameHelpers.py) over
an abstract cell type: the dataframe is an association list from column
names to columns, `fmt` stands for the whole-number format (percent-dot-0f)
applied through `Series.map`, and a missing column — a Python `KeyError`,
caught by the function — yields the scalar NaN.  The series expression
mirrors the source left-to-right: map each column, append an underscore
scalar, add the next mapped column, and so on. -/
def return_ecid_column {α : Type} (fmt : α → Str) (df : List (Str × List α)) : EcidResult :=
  match df.lookup "lot_number".data, df.lookup "wafer_number".data,
        df.lookup "die_x".data, df.lookup "die_y".data with
  | some l, some w, some x, some y =>
    .series (sAdd (sAddScalar (sAdd (sAddScalar (sAdd (sAddScalar (l.map fmt) ['_'])
      (w.map fmt)) ['_']) (x.map fmt)) ['_']) (y.map fmt))
  | _, _, _, _ => .nanScalar

/-- The per-row shape of the ECID series: the four cells formatted and
joined by single underscores, parenthesised exactly as the series
expression associates. -/
def join4 {α : Type} (fmt : α → Str) : List α → List α → List α → List α → List Str
  | a :: as, b :: bs, c :: cs, d :: ds =>
    ((((((fmt a ++ ['_']) ++ fmt b) ++ ['_']) ++ fmt c) ++ ['_']) ++ fmt d) ::
      join4 fmt as bs cs ds
  | _, _, _, _ => []

/-- The concrete dataframe used by the C10 witness. -/
def dfExample : List (Str × List Int) :=
  [("lot_number".data, [7]), ("wafer_number".data, [3]),
   ("die_x".data, [1]), ("die_y".data, [2])]

/-- A concrete timezone rendering for witnesses: every epoch value prints
as the epoch origin. -/
def strfConst : Int → Str :=
  fun _ => "00:00:00T01-Jan-1970".data

/-- A concrete two-field schema (the file-attributes record): field index 2
is out of range. -/
def farSchema : Schema :=
  ⟨"far".data, ["CPU_TYPE".data, "STDF_VER".data], ["U1".data, "U1".data],
   Option.none, Option.none⟩

/-- The pivoted table of the single-row state `sUniq`. -/
def wUniq : List WideRow :=
  match pivotPtr (prepRows true sUniq.ptr_data) with
  | .ok w => w
  | .error _ => []

/-!
## Theorems

Supporting lemmas first, then one theorem per claim (with its
counterexample and witness theorems where applicable).
-/

theorem alistLookup_alistInsert_self (l : List (Str × Nat)) (k : Str) (v : Nat) :
    alistLookup (alistInsert l k v) k = some v := by
  induction l with
  | nil => simp [alistInsert, alistLookup]
  | cons hd tl ih =>
    obtain ⟨k', v'⟩ := hd
    by_cases h : k' = k
    · simp [alistInsert, alistLookup, h]
    · simp [alistInsert, alistLookup, h, ih]

theorem afterSend_part_count (s : WState) (r : Rec) (s' : WState)
    (h : afterSend s r = .ok s') :
    s'.part_count = match r with
      | .pir _ _ => s.part_count + 1
      | _ => s.part_count := by
  cases r with
  | pir head site => simp [afterSend] at h; simp [← h]
  | ptr p =>
    simp only [afterSend] at h
    cases hl : alistLookup s.part_id_dict (partKey (stripPtr p).head (stripPtr p).site) with
    | some i => rw [hl] at h; simp at h; simp [← h]
    | none => rw [hl] at h; simp at h
  | prr p =>
    simp only [afterSend] at h
    cases hl : alistLookup s.part_id_dict (partKey (stripPrr p).head (stripPrr p).site) with
    | some i => rw [hl] at h; simp at h; simp [← h]
    | none => rw [hl] at h; simp at h
  | hbr b => simp [afterSend] at h; simp [← h]
  | sbr b => simp [afterSend] at h; simp [← h]
  | other => simp [afterSend] at h; simp [← h]

theorem runAlloc_trace (recs : List Rec) (s : WState) (sf : WState) (tr : List Nat)
    (h : runAlloc s recs = .ok (sf, tr)) :
    tr = List.range' (s.part_count + 1) (countPirs recs) := by
  induction recs generalizing s sf tr with
  | nil =>
    simp [runAlloc] at h
    simp [h.2, countPirs]
  | cons r rest ih =>
    cases hs : afterSend s r with
    | error e => simp [runAlloc, hs] at h
    | ok s' =>
      cases hr : runAlloc s' rest with
      | error e => simp [runAlloc, hs, hr] at h
      | ok p =>
        obtain ⟨sf', tr'⟩ := p
        simp only [runAlloc, hs, hr] at h
        have hpc := afterSend_part_count s r s' hs
        have htr' := ih s' sf' tr' hr
        cases r with
        | pir head site =>
          simp at h hpc
          rw [← h.2, htr', hpc, countPirs]
          rw [List.range'_succ]
        | ptr p => simp at h hpc; rw [← h.2, htr', hpc]; simp [countPirs]
        | prr p => simp at h hpc; rw [← h.2, htr', hpc]; simp [countPirs]
        | hbr b => simp at h hpc; rw [← h.2, htr', hpc]; simp [countPirs]
        | sbr b => simp at h hpc; rw [← h.2, htr', hpc]; simp [countPirs]
        | other => simp at h hpc; rw [← h.2, htr', hpc]; simp [countPirs]

theorem runAlloc_runStream (recs : List Rec) (s : WState) (sf : WState) (tr : List Nat)
    (h : runAlloc s recs = .ok (sf, tr)) :
    runStream s recs = .ok sf := by
  induction recs generalizing s sf tr with
  | nil => simp [runAlloc] at h; simp [runStream, h.1]
  | cons r rest ih =>
    cases hs : afterSend s r with
    | error e => simp [runAlloc, hs] at h
    | ok s' =>
      cases hr : runAlloc s' rest with
      | error e => simp [runAlloc, hs, hr] at h
      | ok p =>
        obtain ⟨sf', tr'⟩ := p
        simp only [runAlloc, hs, hr] at h
        have hsf : sf' = sf := by
          cases r <;> simp at h <;> exact h.1
        have h2 := ih s' sf' tr' hr
        simp [runStream, hs, h2, hsf]

/-- C1 counterexample: with no open part context for head 1 / site 1 (the
`part_id_dict` is empty), `after_send` on a parametric-result record raises
`KeyError` instead of appending the row with a sentinel index: the claim
that processing does not fail is false at this input. -/
theorem claim_C1_cex :
    afterSend initState (Rec.ptr ptrExample) =
      Except.error ("KeyError: 1-1".data) := by
  rfl

/-- C1 amended: for every parametric-result record whose (head, site) key has
no open part context, `after_send` fails with a `KeyError` naming the key;
no long-form row is appended and no sentinel index is assigned. -/
theorem claim_C1_thm (s : WState) (p : PtrRec)
    (h : alistLookup s.part_id_dict (partKey (stripPtr p).head (stripPtr p).site) = none) :
    afterSend s (Rec.ptr p) =
      Except.error ("KeyError: ".data ++ partKey (stripPtr p).head (stripPtr p).site) := by
  simp [afterSend, h]

/-- Witness for the amended C1 theorem at a concrete input. -/
theorem claim_C1_wit :
    afterSend initState (Rec.ptr ptrExample) =
      Except.error ("KeyError: ".data ++ partKey (stripPtr ptrExample).head (stripPtr ptrExample).site) :=
  claim_C1_thm initState ptrExample (by rfl)

/-- C5: on a successful run over a record stream, the part sequence indices
allocated by the part-begin records form exactly the contiguous range
starting one above the initial part counter, hence are pairwise distinct and
strictly increasing in order of occurrence; moreover every part-begin step
increments the counter and overwrites the open context for its (head, site)
key with the fresh index, regardless of any earlier binding. -/
theorem claim_C5_thm (s0 sF : WState) (recs : List Rec) (tr : List Nat)
    (h : runAlloc s0 recs = .ok (sF, tr)) :
    runStream s0 recs = .ok sF
    ∧ tr = List.range' (s0.part_count + 1) (countPirs recs)
    ∧ tr.Pairwise (· < ·)
    ∧ ∀ (s : WState) (head site : Str) (s' : WState),
        afterSend s (Rec.pir head site) = .ok s' →
        s'.part_count = s.part_count + 1 ∧
        alistLookup s'.part_id_dict (partKey (stripTabs head) (stripTabs site)) =
          some (s.part_count + 1) := by
  refine ⟨runAlloc_runStream recs s0 sF tr h, runAlloc_trace recs s0 sF tr h, ?_, ?_⟩
  · rw [runAlloc_trace recs s0 sF tr h]
    exact List.pairwise_lt_range' _ _
  · intro s head site s' h'
    simp only [afterSend, Except.ok.injEq] at h'
    constructor
    · rw [← h']
    · rw [← h']
      exact alistLookup_alistInsert_self _ _ _

/-- Witness for C5 at a concrete stream: the allocated indices are `[1, 2]`. -/
theorem claim_C5_wit :
    runStream initState recs5 = .ok s5F
    ∧ [1, 2] = List.range' (initState.part_count + 1) (countPirs recs5) :=
  ⟨(claim_C5_thm initState s5F recs5 [1, 2] (by rfl)).1,
   (claim_C5_thm initState s5F recs5 [1, 2] (by rfl)).2.1⟩

theorem prepPtr_ok (ftn : Bool) (rows : List PtrRow) (h : rows ≠ []) :
    prepPtr ftn rows = .ok (prepRows ftn rows) := by
  cases ftn <;> cases rows <;> first | rfl | simp at h

/-- C4: a duplicate (non-pivoted columns, test identifier) combination makes
the pivot raise its shape error, which `post_processing` does not catch:
finalization fails with exactly that error; conversely, when all such
combinations are unique the pivot succeeds. -/
theorem claim_C4_thm (ftn : Bool) (s : WState) (meta : Str → Option Str) :
    (hasDupKeys (pivotKeys (prepRows ftn s.ptr_data)) = true →
      postProcessing ftn s meta = .error pivotErr)
    ∧ (hasDupKeys (pivotKeys (prepRows ftn s.ptr_data)) = false →
      ∃ w, pivotPtr (prepRows ftn s.ptr_data) = .ok w) := by
  constructor
  · intro h
    have hne : s.ptr_data ≠ [] := by
      intro he
      rw [he] at h
      simp [prepRows, pivotKeys, hasDupKeys] at h
    simp [postProcessing, prepPtr_ok ftn s.ptr_data hne, pivotPtr, h]
  · intro h
    simp [pivotPtr, h]

/-- Witness for C4: a state with two rows for the same part and test makes
finalization fail with the pivot error, and a state with a single row
pivots successfully. -/
theorem claim_C4_wit :
    postProcessing true sDup metaNone = .error pivotErr
    ∧ ∃ w, pivotPtr (prepRows true sUniq.ptr_data) = .ok w :=
  ⟨(claim_C4_thm true sDup metaNone).1 (by rfl),
   (claim_C4_thm true sUniq metaNone).2 (by rfl)⟩

/-- C2 counterexample: a stream with two hard-bin summary records for bin 1,
named A then B, yields a final joined table in which both names appear (the
single part row is duplicated, once per surviving bin row), so the later
name is not the one name appearing for that bin number. -/
theorem claim_C2_cex :
    (((runStream initState recs2).bind fun s => postProcessing true s metaNone).map
        fun t => t.map fun r => r.hbin_nam) =
      .ok [some "A".data, some "B".data]
    ∧ "A".data ≠ "B".data := by
  exact ⟨by rfl, by decide⟩

/-- C2 amended: the bin-summary deduplication keeps the last occurrence per
(bin number, bin name) pair.  For two records with the same bin number:
when their names are equal only the later survives and its name is the one
joined; when their names differ both survive and the left join emits one
row per survivor, so both names appear in the final joined table. -/
theorem claim_C2_thm (b1 b2 : BinRec) (m : MRow)
    (hnum : b1.num = b2.num) (hm : m.hbin = b2.num) :
    (b1.nam = b2.nam →
      (leftJoinHbin [m] ((dedupKeepLast [b1, b2]).map selBin)).map (fun r => r.hbin_nam) =
        [some b2.nam])
    ∧ (b1.nam ≠ b2.nam →
      (leftJoinHbin [m] ((dedupKeepLast [b1, b2]).map selBin)).map (fun r => r.hbin_nam) =
        [some b1.nam, some b2.nam]) := by
  constructor
  · intro hn
    have hk : binKey b2 = binKey b1 := by simp [binKey, hnum, hn]
    simp [dedupKeepLast, hk, leftJoinHbin, selBin, List.filter, hm]
  · intro hn
    have hk : ¬ (binKey b2 = binKey b1) := by simp [binKey, hnum]; exact fun a => hn a.symm
    simp [dedupKeepLast, hk, leftJoinHbin, selBin, List.filter, hm, hnum]

/-- Witness for the amended C2 theorem: equal-name records collapse to the
later one, distinct-name records both appear. -/
theorem claim_C2_wit :
    (leftJoinHbin [mExample] ((dedupKeepLast [binA, binA2]).map selBin)).map
        (fun r => r.hbin_nam) = [some binA2.nam]
    ∧ (leftJoinHbin [mExample] ((dedupKeepLast [binA, binB]).map selBin)).map
        (fun r => r.hbin_nam) = [some binA.nam, some binB.nam] :=
  ⟨(claim_C2_thm binA binA2 mExample (by rfl) (by rfl)).1 (by rfl),
   (claim_C2_thm binA binB mExample (by rfl) (by rfl)).2 (by decide)⟩

/-- C3 counterexample: on a state holding one long-form parametric row, a
metadata record whose setup timestamp is the empty string (the value stored
when a master-information record carries an absent timestamp) makes
finalization abort with an uncaught ValueError, so it is not true that
every unparsable or absent timestamp is tolerated. -/
theorem claim_C3_cex :
    postProcessing true sUniq metaBad = .error (valueErr []) := by
  rfl

theorem processCols_all_absent (meta : Str → Option Str) (cols : List Str)
    (tc : List (Str × PyDateTime)) (bc : List (Str × Option Str))
    (h : ∀ c, c ∈ time_columns → meta c = none) :
    processCols meta cols tc bc =
      .ok (tc, bc ++ (cols.filter fun c => !(time_columns.contains c)).map fun c => (c, meta c)) := by
  induction cols generalizing bc with
  | nil => simp [processCols]
  | cons c cs ih =>
    by_cases hc : c ∈ time_columns
    · simp [processCols, hc, h c hc, ih]
    · simp [processCols, hc, ih, List.filter_cons]

theorem processCols_bad_time (meta : Str → Option Str) (cols : List Str)
    (c : Str) (s' : Str)
    (hc : c ∈ cols) (ht : c ∈ time_columns)
    (hm : meta c = some s') (hp : strptimeFixed s' = none) :
    ∀ tc bc, ∃ e, processCols meta cols tc bc = .error e := by
  induction cols with
  | nil => simp at hc
  | cons c0 cs ih =>
    intro tc bc
    rcases List.mem_cons.mp hc with hc0 | hc0
    · subst hc0
      exact ⟨valueErr s', by simp [processCols, ht, hm, hp]⟩
    · by_cases h0 : c0 ∈ time_columns
      · cases hm0 : meta c0 with
        | none =>
          obtain ⟨e, he⟩ := ih hc0 tc bc
          exact ⟨e, by simp [processCols, h0, hm0]; exact he⟩
        | some s0 =>
          cases hp0 : strptimeFixed s0 with
          | none => exact ⟨valueErr s0, by simp [processCols, h0, hm0, hp0]⟩
          | some t0 =>
            obtain ⟨e, he⟩ := ih hc0 (tc ++ [(c0, t0)]) bc
            exact ⟨e, by simp [processCols, h0, hm0, hp0]; exact he⟩
      · obtain ⟨e, he⟩ := ih hc0 tc (bc ++ [(c0, meta c0)])
        exact ⟨e, by simp [processCols, h0]; exact he⟩

/-- C3 amended: the metadata loop parses each declared timestamp field with
the fixed layout inside a try/except that catches only TypeError.  Hence an
absent (None) timestamp is tolerated — no time column is created and the
loop succeeds — but a timestamp string the layout cannot parse raises an
uncaught ValueError, and because `post_processing` does not catch it the
whole finalization fails with that error once the pivot has succeeded. -/
theorem claim_C3_thm (ftn : Bool) (s : WState) (meta : Str → Option Str) :
    ((∀ c, c ∈ time_columns → meta c = none) →
      processMetaCols meta =
        .ok ([], (metaPtrColumns.filter fun c => !(time_columns.contains c)).map
          fun c => (c, meta c)))
    ∧ (∀ c s', c ∈ metaPtrColumns → c ∈ time_columns → meta c = some s' →
        strptimeFixed s' = none → ∃ e, processMetaCols meta = .error e)
    ∧ (∀ prows w e, prepPtr ftn s.ptr_data = .ok prows → pivotPtr prows = .ok w →
        processMetaCols meta = .error e → postProcessing ftn s meta = .error e) := by
  refine ⟨?_, ?_, ?_⟩
  · intro h
    have := processCols_all_absent meta metaPtrColumns [] [] h
    simpa [processMetaCols] using this
  · intro c s' hc ht hm hp
    have := processCols_bad_time meta metaPtrColumns c s' hc ht hm hp [] []
    simpa [processMetaCols] using this
  · intro prows w e hpp hw he
    simp [postProcessing, hpp, hw, he]

/-- Witness for the amended C3 theorem: the all-absent metadata record is
tolerated, and the empty-string timestamp aborts the finalization of a
state holding one long-form row. -/
theorem claim_C3_wit :
    processMetaCols metaNone =
      .ok ([], (metaPtrColumns.filter fun c => !(time_columns.contains c)).map
        fun c => (c, metaNone c))
    ∧ postProcessing true sUniq metaBad = .error (valueErr []) :=
  ⟨(claim_C3_thm true sUniq metaNone).1 (fun _ _ => rfl),
   (claim_C3_thm true sUniq metaBad).2.2 (prepRows true sUniq.ptr_data) wUniq
     (valueErr []) (by rfl) (by rfl) (by rfl)⟩

/-- C6 counterexample: running the stream `recs6` (part identifiers arrive
as 2 then 1) through finalization yields a final table whose part sequence
indices read [2, 1] — the sort is by part identifier, so adjacent rows do
not carry ascending part indices. -/
theorem claim_C6_cex :
    (((runStream initState recs6).bind fun s => postProcessing true s metaNone).map
        fun t => t.map fun r => r.index) = .ok [2, 1]
    ∧ (((runStream initState recs6).bind fun s => postProcessing true s metaNone).map
        fun t => idxAscending (t.map fun r => r.index)) = .ok false := by
  exact ⟨by rfl, by rfl⟩

theorem chain'_insertByPartId (x : FRow) (l : List FRow)
    (h : List.Chain' (fun a b => a.part_id ≤ b.part_id) l) :
    List.Chain' (fun a b => a.part_id ≤ b.part_id) (insertByPartId x l) := by
  induction l with
  | nil => simp [insertByPartId]
  | cons y ys ih =>
    rw [List.chain'_cons'] at h
    rw [insertByPartId]
    by_cases hxy : x.part_id ≤ y.part_id
    · rw [if_pos hxy, List.chain'_cons']
      refine ⟨?_, List.chain'_cons'.mpr h⟩
      intro z hz
      simp at hz
      rw [← hz]
      exact hxy
    · rw [if_neg hxy, List.chain'_cons']
      refine ⟨?_, ih h.2⟩
      intro z hz
      cases ys with
      | nil =>
        simp [insertByPartId] at hz
        rw [← hz]
        exact le_of_not_le hxy
      | cons w ws =>
        rw [insertByPartId] at hz
        by_cases hxw : x.part_id ≤ w.part_id
        · rw [if_pos hxw] at hz
          simp at hz
          rw [← hz]
          exact le_of_not_le hxy
        · rw [if_neg hxw] at hz
          simp at hz
          rw [← hz]
          exact h.1 w rfl

theorem chain'_sortByPartId (l : List FRow) :
    List.Chain' (fun a b => a.part_id ≤ b.part_id) (sortByPartId l) := by
  induction l with
  | nil => simp [sortByPartId]
  | cons x xs ih => exact chain'_insertByPartId x (sortByPartId xs) ih

/-- C6 amended: the final table is sorted ascending by the part identifier
column (the PART_ID reported by the part-end record, with -1 substituted
for a missing value), not by the allocated part sequence index: whenever
finalization succeeds, adjacent rows carry ascending part identifiers. -/
theorem claim_C6_thm (ftn : Bool) (s : WState) (meta : Str → Option Str)
    (t : List FRow) (h : postProcessing ftn s meta = .ok t) :
    List.Chain' (fun a b => a.part_id ≤ b.part_id) t := by
  cases hpp : prepPtr ftn s.ptr_data with
  | error e => simp [postProcessing, hpp] at h
  | ok prows =>
    cases hp : pivotPtr prows with
    | error e => simp [postProcessing, hpp, hp] at h
    | ok wide =>
      cases hm : processMetaCols meta with
      | error e => simp [postProcessing, hpp, hp, hm] at h
      | ok p =>
        obtain ⟨tc, bc⟩ := p
        simp only [postProcessing, hpp, hp, hm] at h
        simp at h
        rw [← h]
        exact chain'_sortByPartId _

/-- Witness for the amended C6 theorem at the concrete stream `recs6`. -/
theorem claim_C6_wit :
    List.Chain' (fun a b => a.part_id ≤ b.part_id) t6 :=
  claim_C6_thm true s6 metaNone t6 (by rfl)

/-- C7: looking up a (type, subtype) pair with no registered schema yields
the well-defined unknown-record schema: zero field names, zero field types,
and the raw type and subtype tags, so unrecognized record kinds decode as
empty records instead of aborting parsing. -/
theorem claim_C7_thm (reg : List ((Nat × Nat) × Schema)) (typ sub : Nat)
    (h : reg.lookup (typ, sub) = none) :
    lookupSchema reg typ sub = UnknownRecord typ sub
    ∧ (lookupSchema reg typ sub).fieldNames = []
    ∧ (lookupSchema reg typ sub).fieldStdfTypes = []
    ∧ (lookupSchema reg typ sub).rec_typ = some typ
    ∧ (lookupSchema reg typ sub).rec_sub = some sub := by
  simp [lookupSchema, h, UnknownRecord]

/-- Witness for C7 at the empty registry and a vendor-specific tag pair. -/
theorem claim_C7_wit :
    lookupSchema [] 200 40 = UnknownRecord 200 40
    ∧ (lookupSchema [] 200 40).fieldNames = []
    ∧ (lookupSchema [] 200 40).fieldStdfTypes = []
    ∧ (lookupSchema [] 200 40).rec_typ = some 200
    ∧ (lookupSchema [] 200 40).rec_sub = some 40 :=
  claim_C7_thm [] 200 40 (by rfl)

/-- C8 counterexample: on the two-field file-attributes schema, field index
2 is out of range, and `csv_format` of None raises IndexError instead of
returning the empty string, because the field-type fetch precedes the None
check. -/
theorem claim_C8_cex :
    csv_format strfConst farSchema 2 Value.none =
      .error "IndexError: list index out of range".data := by
  rfl

/-- C8 amended: for every record type and every field index within its
field-type list, `csv_format` applied to None returns the empty string:
the None check precedes the array, date-time and hex formatting branches,
so a None value never reaches them.  Only the eager field-type fetch runs
before the None check, and it raises IndexError for an out-of-range
index. -/
theorem claim_C8_thm (strf : Int → Str) (rectype : Schema) (field_index : Nat)
    (h : field_index < rectype.fieldStdfTypes.length) :
    csv_format strf rectype field_index Value.none = .ok [] := by
  simp [csv_format, List.getElem?_eq_getElem h]

/-- Witness for the amended C8 theorem at a concrete in-range index. -/
theorem claim_C8_wit :
    csv_format strfConst farSchema 0 Value.none = Except.ok [] :=
  claim_C8_thm strfConst farSchema 0 (by decide)

/-- C9: the writer's output file type is always one of the two supported
values; a None or unsupported argument silently falls back to csv. -/
theorem claim_C9_thm (oft : Option Str) :
    (selectOutputFileType oft = "csv".data ∨ selectOutputFileType oft = "parquet".data)
    ∧ selectOutputFileType none = "csv".data
    ∧ (∀ t, oft = some t → t ∉ supported_files → selectOutputFileType oft = "csv".data) := by
  refine ⟨?_, rfl, ?_⟩
  · cases oft with
    | none => left; rfl
    | some t =>
      by_cases h : t ∈ supported_files
      · have h' := h
        simp only [supported_files, List.mem_cons, List.mem_singleton] at h'
        rcases h' with h' | h' | h'
        · subst h'; left; rfl
        · subst h'; right; rfl
        · simp at h'
      · left; simp [selectOutputFileType, h]
  · intro t ht hmem
    rw [ht]
    simp [selectOutputFileType, hmem]

/-- Witness for C9: an unsupported xlsx argument falls back to csv. -/
theorem claim_C9_wit :
    (selectOutputFileType (some "xlsx".data) = "csv".data
      ∨ selectOutputFileType (some "xlsx".data) = "parquet".data)
    ∧ selectOutputFileType none = "csv".data
    ∧ selectOutputFileType (some "xlsx".data) = "csv".data :=
  ⟨(claim_C9_thm (some "xlsx".data)).1,
   (claim_C9_thm (some "xlsx".data)).2.1,
   (claim_C9_thm (some "xlsx".data)).2.2 "xlsx".data rfl (by decide)⟩

theorem ecid_series_eq_join4 {α : Type} (fmt : α → Str) (l w x y : List α) :
    sAdd (sAddScalar (sAdd (sAddScalar (sAdd (sAddScalar (l.map fmt) ['_'])
      (w.map fmt)) ['_']) (x.map fmt)) ['_']) (y.map fmt) = join4 fmt l w x y := by
  induction l generalizing w x y with
  | nil => rfl
  | cons a as ih =>
    cases w with
    | nil => rfl
    | cons b bs =>
      cases x with
      | nil => rfl
      | cons c cs =>
        cases y with
        | nil => rfl
        | cons d ds =>
          have ih' := ih bs cs ds
          simp only [sAdd, sAddScalar] at ih'
          simp only [List.map_cons, sAddScalar, sAdd, List.zipWith_cons_cons, join4]
          rw [ih']

/-- C10: with all four identity columns present, `return_ecid_column`
returns a per-row series in which every row is the four cell values each
formatted as a whole number and joined by single underscores; and whenever
any of the four columns is missing it returns the scalar NaN instead of
raising. -/
theorem claim_C10_thm {α : Type} (fmt : α → Str) (df : List (Str × List α))
    (l w x y : List α)
    (hl : df.lookup "lot_number".data = some l)
    (hw : df.lookup "wafer_number".data = some w)
    (hx : df.lookup "die_x".data = some x)
    (hy : df.lookup "die_y".data = some y) :
    return_ecid_column fmt df = .series (join4 fmt l w x y)
    ∧ ∀ (df' : List (Str × List α)),
        (df'.lookup "lot_number".data = none ∨ df'.lookup "wafer_number".data = none ∨
         df'.lookup "die_x".data = none ∨ df'.lookup "die_y".data = none) →
        return_ecid_column fmt df' = .nanScalar := by
  constructor
  · simp [return_ecid_column, hl, hw, hx, hy, ecid_series_eq_join4]
  · intro df' h'
    cases hA : df'.lookup "lot_number".data with
    | none => simp [return_ecid_column, hA]
    | some l' =>
      cases hB : df'.lookup "wafer_number".data with
      | none => simp [return_ecid_column, hA, hB]
      | some w' =>
        cases hC : df'.lookup "die_x".data with
        | none => simp [return_ecid_column, hA, hB, hC]
        | some x' =>
          cases hD : df'.lookup "die_y".data with
          | none => simp [return_ecid_column, hA, hB, hC, hD]
          | some y' => simp [hA, hB, hC, hD] at h'

/-- Witness for C10: a one-row dataframe with all four columns yields the
joined series. -/
theorem claim_C10_wit :
    return_ecid_column intToStr dfExample = .series (join4 intToStr [7] [3] [1] [2]) :=
  (claim_C10_thm intToStr dfExample [7] [3] [1] [2] rfl rfl rfl rfl).1
